import Mathlib

/-!
Shallow embedding of the nanolab-processing-base core
(`extras/datasets/nanolab_dataframe.py` and `hooks_utils.py`).

Files are modelled as `List String` (their lines, without trailing
newlines); Python exceptions are modelled by `PyResult`; Python `float`
values parsed from decimal strings are modelled as `Rat` (the exotic
`float` input forms `inf`, `nan` and underscore separators are not
modelled, no claim depends on them); `pandas` calls
(`pd.read_csv`, `pd.DataFrame`, `pd.to_datetime`) are external to the
repository and are modelled by their inputs (the dtype mapping and header
offset handed to `read_csv`, the epoch-seconds rational handed to
`to_datetime`, the list of property rows handed to `DataFrame`).
Python `dict`s are association lists with Python's update semantics
(`dictInsert`: an existing key keeps its position and takes the new
value, a new key is appended).
-/

/-- Result of running a piece of Python code: a value, or a raised
exception carrying its message. -/
inductive PyResult (α : Type) where
  | ok (val : α)
  | exn (msg : String)
deriving DecidableEq, Repr

namespace PyResult

def isOk {α : Type} : PyResult α → Bool
  | .ok _ => true
  | .exn _ => false

def toOption {α : Type} : PyResult α → Option α
  | .ok v => some v
  | .exn _ => none

end PyResult

/-- The apostrophe character, used by Python error messages to quote
offending values. -/
def apos : String := String.singleton (Char.ofNat 39)

/-- Python `repr`-style quoting used in exception messages. -/
def pyQuote (s : String) : String := apos ++ s ++ apos

/-- The characters stripped by Python `str.strip()` with no argument. -/
def pyIsSpace (c : Char) : Bool :=
  c = Char.ofNat 32 || c = Char.ofNat 9 || c = Char.ofNat 10 ||
  c = Char.ofNat 13 || c = Char.ofNat 11 || c = Char.ofNat 12

/-- Python `str.strip()` on a character list. -/
def pyStrip (cs : List Char) : List Char :=
  ((cs.dropWhile pyIsSpace).reverse.dropWhile pyIsSpace).reverse

/-- Python `str.strip()` on a string. -/
def pyStripS (s : String) : String := String.mk (pyStrip s.toList)

/-- `beginsWith pat cs` is Python `cs.startswith(pat)`. -/
def beginsWith : List Char → List Char → Bool
  | [], _ => true
  | _ :: _, [] => false
  | p :: ps, c :: cs => p = c && beginsWith ps cs

/-- Python `cs.endswith(pat)`. -/
def isSuffixOf (pat cs : List Char) : Bool :=
  beginsWith pat.reverse cs.reverse

/-- Python `s.split(sep)` for a one-character separator: no collapsing of
adjacent separators, `"".split(sep) == [""]`. -/
def splitChar (sep : Char) : List Char → List (List Char)
  | [] => [[]]
  | c :: rest =>
    let r := splitChar sep rest
    if c = sep then [] :: r
    else
      match r with
      | [] => [[c]]
      | h :: t => (c :: h) :: t

/-- Python `s.split(": ", 1)`: split at the first occurrence of the
two-character separator colon-space; `none` when the separator is absent
(in Python the unpacking of the 1-element list then raises). -/
def splitFirstColonSpace : List Char → Option (List Char × List Char)
  | [] => none
  | c1 :: rest =>
    match rest with
    | [] => none
    | c2 :: rest2 =>
      if c1 = ':' ∧ c2 = Char.ofNat 32 then some ([], rest2)
      else (splitFirstColonSpace rest).map (fun p => (c1 :: p.1, p.2))

/-- Python `s.replace("#\t", "")`: delete every occurrence of the
two-character pattern hash-tab. -/
def replaceHashTab : List Char → List Char
  | [] => []
  | [c] => [c]
  | c1 :: c2 :: rest =>
    if c1 = '#' ∧ c2 = Char.ofNat 9 then replaceHashTab rest
    else c1 :: replaceHashTab (c2 :: rest)

/-- Numeric value of a list of decimal digit characters. -/
def digitsVal (ds : List Char) : Nat :=
  ds.foldl (fun a c => a * 10 + (c.toNat - 48)) 0

/-- Leading optional sign of a Python numeric literal. -/
def parseSign : List Char → Int × List Char
  | c :: rest =>
    if c = '-' then (-1, rest)
    else if c = '+' then (1, rest)
    else (1, c :: rest)
  | [] => (1, [])

/-- `n · 10^e` as a rational. -/
def ratTimesPow10 (n : Int) (e : Int) : Rat :=
  if 0 ≤ e then ((n * (10 : Int) ^ e.toNat : Int) : Rat)
  else mkRat n ((10 : Nat) ^ (-e).toNat)

/-- Core of Python `float()` on an already-stripped character list:
optional sign, decimal digits with at most one point, optional decimal
exponent. Returns `none` where Python raises `ValueError`. -/
def pyFloatCore (cs : List Char) : Option Rat :=
  let (sgn, cs1) := parseSign cs
  let intDs := cs1.takeWhile Char.isDigit
  let cs2 := cs1.dropWhile Char.isDigit
  let (fracDs, cs3) :=
    match cs2 with
    | '.' :: rest => (rest.takeWhile Char.isDigit, rest.dropWhile Char.isDigit)
    | _ => ([], cs2)
  if intDs.isEmpty ∧ fracDs.isEmpty then none
  else
    let mant : Int := sgn * (digitsVal (intDs ++ fracDs) : Int)
    let scale : Int := -(fracDs.length : Int)
    match cs3 with
    | [] => some (ratTimesPow10 mant scale)
    | e :: rest =>
      if e = 'e' ∨ e = 'E' then
        let (esgn, r2) := parseSign rest
        let eDs := r2.takeWhile Char.isDigit
        let r3 := r2.dropWhile Char.isDigit
        if eDs.isEmpty ∨ ¬ r3.isEmpty then none
        else some (ratTimesPow10 mant (scale + esgn * (digitsVal eDs : Nat)))
      else none

/-- Python `float(s)`, with its `ValueError` message. -/
def pyFloat (cs : List Char) : PyResult Rat :=
  match pyFloatCore (pyStrip cs) with
  | some q => .ok q
  | none => .exn ("could not convert string to float: " ++ pyQuote (String.mk cs))

/-- Python `int(s)`, with its `ValueError` message. -/
def pyInt (cs : List Char) : PyResult Int :=
  let (sgn, cs1) := parseSign (pyStrip cs)
  if cs1.isEmpty ∨ ¬ cs1.all Char.isDigit then
    .exn ("invalid literal for int() with base 10: " ++ pyQuote (String.mk cs))
  else .ok (sgn * (digitsVal cs1 : Int))

/-- A typed metadata value produced by `parse_metadata`; `pdatetime`
holds the epoch-seconds rational handed to `pd.to_datetime(·, unit=s)`. -/
inductive PValue where
  | pfloat (q : Rat)
  | pint (n : Int)
  | pbool (b : Bool)
  | pstr (s : String)
  | pdatetime (seconds : Rat)
deriving DecidableEq, Repr

/-- `unix_time_to_datetime`: `float()` the string, wrap the parse failure
in the `Invalid Unix timestamp` message; the resulting `pd.Timestamp` is
modelled by its epoch-seconds value. -/
def unix_time_to_datetime (s : String) : PyResult Rat :=
  match pyFloat s.toList with
  | .ok q => .ok q
  | .exn _ => .exn ("Invalid Unix timestamp: " ++ s)

/-- `string_to_bool`: true exactly on the literal `"True"`. -/
def string_to_bool (string_bool : String) : Bool := string_bool = "True"

/-- `parse_metadata(key, value, how_to_process)`: the type-tag dispatch
of the coercer, in source order. -/
def parse_metadata (key value how_to_process : String) : PyResult PValue :=
  if how_to_process = "float" then
    match pyFloat ((splitChar (Char.ofNat 32) value.toList).headD []) with
    | .ok q => .ok (.pfloat q)
    | .exn e => .exn e
  else if how_to_process = "int" then
    match pyInt value.toList with
    | .ok n => .ok (.pint n)
    | .exn e => .exn e
  else if how_to_process = "bool" then .ok (.pbool (string_to_bool value))
  else if how_to_process = "str" then .ok (.pstr value)
  else if how_to_process = "datetime" then
    match unix_time_to_datetime value with
    | .ok q => .ok (.pdatetime q)
    | .exn e => .exn e
  else if how_to_process = "float_no_unit" then
    match pyFloat value.toList with
    | .ok q => .ok (.pfloat q)
    | .exn e => .exn e
  else .exn ("Unhandled metadata key: " ++ key)

example : parse_metadata "k" "36.5 C" "float" = .ok (.pfloat (mkRat 365 10)) := by decide
example : parse_metadata "k" "42" "int" = .ok (.pint 42) := by decide
example : parse_metadata "k" "True" "bool" = .ok (.pbool true) := by decide
example : parse_metadata "k" "true" "bool" = .ok (.pbool false) := by decide
example : (parse_metadata "k" "abc" "float").isOk = false := by decide

/-! ### Python dictionaries as association lists -/

/-- Python `d[k] = v`: an existing key keeps its position and takes the
new value; a new key is appended at the end. -/
def dictInsert {α : Type} : List (String × α) → String → α → List (String × α)
  | [], k, v => [(k, v)]
  | (k0, v0) :: rest, k, v =>
    if k0 = k then (k0, v) :: rest else (k0, v0) :: dictInsert rest k v

/-- Python `d.get(k)` / `d[k]` lookup. -/
def dictGet? {α : Type} : List (String × α) → String → Option α
  | [], _ => none
  | (k0, v0) :: rest, k => if k0 = k then some v0 else dictGet? rest k

/-- The dict built by inserting a sequence of pairs left to right, as a
Python dict comprehension does. -/
def pyDictOf {α : Type} (ps : List (String × α)) : List (String × α) :=
  ps.foldl (fun d p => dictInsert d p.1 p.2) []

/-- Python `a | b` on dicts: start from `a`, insert every pair of `b`. -/
def pyDictMerge {α : Type} (a b : List (String × α)) : List (String × α) :=
  b.foldl (fun d p => dictInsert d p.1 p.2) a

/-! ### `make_dict_from_parsed_data` and `read_comment_lines` -/

/-- The message of the `ValueError` raised by `make_dict_from_parsed_data`
when a line does not split into a key and a value. -/
def malformedLineMsg : String :=
  "Each line must contain a key and a value separated by " ++ pyQuote ": " ++ "."

/-- One step of the generator `pair.split(": ", 1)` with tuple unpacking:
a line without the separator raises. -/
def parseHeaderPair (l : String) : PyResult (String × String) :=
  match splitFirstColonSpace l.toList with
  | some (a, b) => .ok (String.mk a, String.mk b)
  | none => .exn malformedLineMsg

/-- Run the generator over all lines, first failure wins. -/
def parseHeaderPairs : List String → PyResult (List (String × String))
  | [] => .ok []
  | l :: rest =>
    match parseHeaderPair l with
    | .ok p =>
      match parseHeaderPairs rest with
      | .ok ps => .ok (p :: ps)
      | .exn e => .exn e
    | .exn e => .exn e

/-- `make_dict_from_parsed_data(list_of_lines)`: the dict comprehension
`{k: i for k, i in (pair.split(": ", 1) for pair in list_of_lines)}`. -/
def make_dict_from_parsed_data (ls : List String) : PyResult (List (String × String)) :=
  match parseHeaderPairs ls with
  | .ok ps => .ok (pyDictOf ps)
  | .exn e => .exn e

/-- The lines collected by the `read_comment_lines` loop: stripped lines
beginning with hash-tab, with every hash-tab occurrence removed. -/
def commentLinesOf (lines : List String) : List String :=
  lines.filterMap (fun l =>
    let t := (pyStripS l).toList
    if beginsWith [ '#', Char.ofNat 9 ] t then some (String.mk (replaceHashTab t))
    else none)

/-- The counter `current_line` of `read_comment_lines`: the number of
lines whose stripped form begins with the comment marker. -/
def hashCount (lines : List String) : Nat :=
  (lines.filter (fun l => beginsWith [ '#' ] (pyStripS l).toList)).length

/-- `read_comment_lines(file_path)` on the file's lines. Note the source
returns `({}, 0)` whenever no hash-tab line was collected, even if plain
hash lines were counted. (`FileNotFoundError` concerns the filesystem and
is outside this model, which starts from the file's contents.) -/
def read_comment_lines (lines : List String) : PyResult (List (String × String) × Nat) :=
  let cl := commentLinesOf lines
  if cl.isEmpty then .ok ([], 0)
  else
    match make_dict_from_parsed_data cl with
    | .ok d => .ok (d, hashCount lines)
    | .exn e => .exn e

/-! ### `determine_procedure` -/

/-- The part of the list strictly after the first occurrence of `c`,
`none` if `c` does not occur. -/
def afterFirst (c : Char) : List Char → Option (List Char)
  | [] => none
  | x :: xs => if x = c then some xs else afterFirst c xs

/-- The part of the list strictly before the first occurrence of `c`,
`none` if `c` does not occur. -/
def upToFirst (c : Char) : List Char → Option (List Char)
  | [] => none
  | x :: xs => if x = c then some [] else (upToFirst c xs).map (x :: ·)

/-- `re.search(r"<(.*?)>", s)`: the earliest match starts at the first
angle-open that is followed by an angle-close, and the lazy group stops
at the first angle-close after it. -/
def reSearchAngle (cs : List Char) : Option (List Char) :=
  (afterFirst '<' cs).bind (upToFirst '>')

/-- `determine_procedure(path)` on the file's lines: requires a `.csv`
path, reads the stripped first line, and returns the last dot-separated
segment of the first bracketed group; the Boolean records whether the
`UserWarning` (no bracketed content) was emitted. -/
def determine_procedure (path : String) (lines : List String) : PyResult (String × Bool) :=
  if isSuffixOf ".csv".toList path.toList then
    match reSearchAngle (pyStripS (lines.headD "")).toList with
    | some content => .ok (String.mk ((splitChar '.' content).getLastD []), false)
    | none => .ok ("", true)
  else
    .exn ("The file " ++ pyQuote path ++ " is not a CSV. Please provide a valid .csv file.")

/-! ### `get_data_key` -/

/-- `os.path.join(folder, file_name)` for components that contain no
separator (both come from a split on the separator): empty folder yields
the file name alone, otherwise the two joined by the separator. -/
def osPathJoin (folder file : List Char) : List Char :=
  if folder.isEmpty then file else folder ++ '/' :: file

/-- `get_data_key(path)`: the parent-folder component and the stem of the
last component, joined; a path with fewer than two slash-separated
components makes `splitted_path[-2]` raise `IndexError`. -/
def get_data_key (path : String) : PyResult String :=
  match (splitChar '/' path.toList).reverse with
  | last :: folder :: _ =>
    .ok (String.mk (osPathJoin folder ((splitChar '.' last).headD [])))
  | _ => .exn "IndexError: list index out of range"

example : get_data_key "a/b/c.csv" = .ok "b/c" := by decide

/-! ### Schema registry access -/

/-- One entry of the `procedures` registry: the three mappings of a
procedure definition (`Data` maps column names to dtype strings that are
handed unchanged to `pd.read_csv`). -/
structure ProcedureDef where
  Parameters : List (String × String)
  Metadata : List (String × String)
  Data : List (String × String)
deriving DecidableEq, Repr

/-- The external registry: procedure name to definition. -/
abbrev Registry : Type := List (String × ProcedureDef)

/-- `get_keys(procedure)`, with the registry passed explicitly: the
parameter keys followed by the metadata keys; `KeyError` when the
procedure is absent. (The two `isinstance(·, list)` checks of the source
are vacuously true: `list(dict.keys())` is always a list.) -/
def get_keys (procedures : Registry) (procedure : String) : PyResult (List String) :=
  match dictGet? procedures procedure with
  | none => .exn ("Procedure " ++ pyQuote procedure ++ " not found in procedures.")
  | some p => .ok (p.Parameters.map Prod.fst ++ p.Metadata.map Prod.fst)

/-- The lazy process-wide cache of `get_procedures`: the global
`_cached_procedures` is the state, `registry` is the value the catalog
load `load_catalog_item("params:procedures")` would produce, and the
returned `Nat` counts how many catalog loads this call performed. -/
def get_procedures_st (registry : Registry) :
    Option Registry → Registry × Option Registry × Nat
  | none => (registry, some registry, 1)
  | some r => (r, some r, 0)

/-- A sequence of `n` successive `get_procedures()` calls from a given
cache state: the list of returned registries, the final cache state, and
the total number of catalog loads performed. -/
def run_get_procedures (registry : Registry) :
    Nat → Option Registry → List Registry × Option Registry × Nat
  | 0, s => ([], s, 0)
  | n + 1, s =>
    let (r, s1, c) := get_procedures_st registry s
    let (rs, s2, c2) := run_get_procedures registry n s1
    (r :: rs, s2, c + c2)

/-! ### `make_props_data` -/

/-- The `KeyError` message of the header-key validation loop. -/
def keyMissingMsg (key procedure : String) : String :=
  "Key " ++ pyQuote key ++ " is missing in the configuration file of " ++ procedure ++ "."

/-- `parse_metadata(key, dictionary_found_properties[key], procedure_dict[key])`
for one header entry: the merged `Parameters | Metadata` dict supplies the
type tag (a miss there would be a Python `KeyError`, unreachable for keys
of `get_keys`). -/
def coerceEntry (pd : ProcedureDef) (k v : String) : PyResult PValue :=
  match dictGet? (pyDictMerge pd.Parameters pd.Metadata) k with
  | some how => parse_metadata k v how
  | none => .exn ("KeyError: " ++ pyQuote k)

/-- The `for key in dictionary_found_properties` loop of
`make_props_data`: known keys are coerced into `props_dict`, the first
unknown key raises the validation `KeyError`. -/
def processProps (keys : List String) (pd : ProcedureDef) (procedure : String) :
    List (String × String) → PyResult (List (String × PValue))
  | [] => .ok []
  | (k, v) :: rest =>
    if k ∈ keys then
      match coerceEntry pd k v with
      | .ok pv =>
        match processProps keys pd procedure rest with
        | .ok ps => .ok ((k, pv) :: ps)
        | .exn e => .exn e
      | .exn e => .exn e
    else .exn (keyMissingMsg k procedure)

/-- `make_props_data(path)` on the file's lines, with the registry that
`get_procedures()` returns passed explicitly. The returned pair is the
properties dict (the `pd.Series` contents, in insertion order) together
with the inputs of the external `pd.read_csv(path, header=header,
dtype=dtype_mapping)` call: the header offset and the dtype mapping. -/
def make_props_data (path : String) (lines : List String) (procedures : Registry) :
    PyResult (List (String × PValue) × Nat × List (String × String)) :=
  match read_comment_lines lines with
  | .exn e => .exn e
  | .ok (found, header) =>
    match determine_procedure path lines with
    | .exn e => .exn e
    | .ok (procedure, _warned) =>
      match get_keys procedures procedure with
      | .exn e => .exn e
      | .ok keys =>
        match dictGet? procedures procedure with
        | none => .exn ("KeyError: " ++ pyQuote procedure)
        | some pd =>
          match processProps keys pd procedure found with
          | .exn e => .exn e
          | .ok props0 =>
            match get_data_key path with
            | .exn e => .exn e
            | .ok dk =>
              .ok (dictInsert (dictInsert props0 "data_key" (.pstr dk))
                     "Procedure type" (.pstr procedure),
                   header, pd.Data)

/-! ### `separate_nanolab_dataset` -/

/-- The accumulating loop of `separate_nanolab_dataset`: `acc_props` is
`props_list`, `acc_data` is `indexed_data`; a producer that raises is
skipped. The producers' outcomes stand for calling
`experiment_callable()`. -/
def sepGo {α β : Type} (acc_props : List α) (acc_data : List (String × β)) :
    List (String × PyResult (α × β)) → List α × List (String × β)
  | [] => (acc_props, acc_data)
  | (k, r) :: rest =>
    match r with
    | .ok (p, d) => sepGo (acc_props ++ [p]) (dictInsert acc_data k d) rest
    | .exn _ => sepGo acc_props acc_data rest

/-- `separate_nanolab_dataset(experiments)`: the consolidated properties
(the row list handed to the external `pd.DataFrame`) and the per-key data
tables. -/
def separate_nanolab_dataset {α β : Type}
    (experiments : List (String × PyResult (α × β))) : List α × List (String × β) :=
  sepGo [] [] experiments

/-- The `logger.error` lines emitted by `separate_nanolab_dataset`, as
(entry key, exception message) pairs in emission order. -/
def separate_errors {α β : Type} :
    List (String × PyResult (α × β)) → List (String × String)
  | [] => []
  | (_, .ok _) :: rest => separate_errors rest
  | (k, .exn e) :: rest => (k, e) :: separate_errors rest

/-! ### Helper lemmas -/

theorem dictGet?_dictInsert {α : Type} (d : List (String × α)) (k k' : String) (v : α) :
    dictGet? (dictInsert d k v) k' = if k = k' then some v else dictGet? d k' := by
  induction d with
  | nil => simp [dictInsert, dictGet?]
  | cons p rest ih =>
    obtain ⟨k0, v0⟩ := p
    by_cases h0 : k0 = k
    · subst h0
      by_cases h1 : k0 = k'
      · subst h1; simp [dictInsert, dictGet?]
      · simp [dictInsert, dictGet?, h1]
    · by_cases h1 : k0 = k'
      · subst h1
        have : ¬ k = k0 := fun h => h0 h.symm
        simp [dictInsert, dictGet?, h0, this]
      · simp [dictInsert, dictGet?, h0, h1, ih]

theorem mem_keys_dictInsert {α : Type} (d : List (String × α)) (k k' : String) (v : α) :
    k' ∈ (dictInsert d k v).map Prod.fst ↔ k' ∈ d.map Prod.fst ∨ k' = k := by
  induction d with
  | nil => simp [dictInsert]
  | cons p rest ih =>
    obtain ⟨k0, v0⟩ := p
    by_cases h0 : k0 = k
    · subst h0; simp [dictInsert]; tauto
    · simp [dictInsert, h0, ih]; tauto

/-- The value carried by the last pair with the given key, if any. -/
def lastValue (k : String) : List (String × String) → Option String
  | [] => none
  | p :: ps =>
    match lastValue k ps with
    | some v => some v
    | none => if p.1 = k then some p.2 else none

theorem dictGet?_foldl_dictInsert (k : String) (ps : List (String × String))
    (d0 : List (String × String)) :
    dictGet? (ps.foldl (fun d p => dictInsert d p.1 p.2) d0) k =
      match lastValue k ps with
      | some v => some v
      | none => dictGet? d0 k := by
  induction ps generalizing d0 with
  | nil => simp [lastValue]
  | cons p ps ih =>
    simp only [List.foldl_cons, lastValue, ih, dictGet?_dictInsert]
    cases lastValue k ps with
    | some v => simp
    | none =>
      by_cases hk : p.1 = k
      · simp [hk]
      · simp [hk]

theorem getLast?_cons_ne_nil {α : Type} (a : α) (l : List α) :
    ∃ x, (a :: l).getLast? = some x := by
  induction l generalizing a with
  | nil => exact ⟨a, rfl⟩
  | cons b t ih =>
    obtain ⟨x, hx⟩ := ih b
    exact ⟨x, by rw [List.getLast?_cons_cons]; exact hx⟩

theorem lastValue_eq_getLast?_filter (k : String) (ps : List (String × String)) :
    lastValue k ps = ((ps.filter (fun p => p.1 = k)).getLast?).map Prod.snd := by
  induction ps with
  | nil => simp [lastValue]
  | cons p ps ih =>
    by_cases hk : p.1 = k
    · rw [List.filter_cons_of_pos (by simp [hk])]
      cases hf : ps.filter (fun p => decide (p.1 = k)) with
      | nil =>
        rw [hf] at ih
        simp only [lastValue, ih, List.getLast?_nil, Option.map_none', hk, if_true]
        rfl
      | cons q t =>
        obtain ⟨x, hx⟩ := getLast?_cons_ne_nil q t
        rw [hf] at ih
        rw [hx] at ih
        simp only [lastValue, ih, Option.map_some', List.getLast?_cons_cons, hx]
    · rw [List.filter_cons_of_neg (by simp [hk])]
      cases hv : lastValue k ps with
      | some v => rw [hv] at ih; simp only [lastValue, hv, ← ih]
      | none => rw [hv] at ih; simp only [lastValue, hv, hk, if_false, ← ih]

/-- Keys of the entries whose producer succeeds. -/
def okKeys {α β : Type} (exps : List (String × PyResult (α × β))) : List String :=
  exps.filterMap (fun x =>
    match x.2 with
    | .ok _ => some x.1
    | .exn _ => none)

theorem sepGo_props {α β : Type} (exps : List (String × PyResult (α × β)))
    (ps : List α) (ds : List (String × β)) :
    (sepGo ps ds exps).1 = ps ++ exps.filterMap (fun x => x.2.toOption.map Prod.fst) := by
  induction exps generalizing ps ds with
  | nil => simp [sepGo]
  | cons x rest ih =>
    obtain ⟨k, r⟩ := x
    cases r with
    | ok pd =>
      obtain ⟨p, d⟩ := pd
      simp [sepGo, ih, PyResult.toOption]
    | exn e => simp [sepGo, ih, PyResult.toOption]

theorem sepGo_data_mem {α β : Type} (exps : List (String × PyResult (α × β)))
    (ps : List α) (ds : List (String × β)) (k : String) :
    k ∈ (sepGo ps ds exps).2.map Prod.fst ↔
      k ∈ ds.map Prod.fst ∨ k ∈ okKeys exps := by
  induction exps generalizing ps ds with
  | nil => simp [sepGo, okKeys]
  | cons x rest ih =>
    obtain ⟨k0, r⟩ := x
    cases r with
    | ok pd =>
      obtain ⟨p, d⟩ := pd
      simp only [sepGo, ih, mem_keys_dictInsert, okKeys, List.filterMap_cons]
      simp only [show List.filterMap _ rest = okKeys rest from rfl, List.mem_cons]
      tauto
    | exn e =>
      simp only [sepGo, ih, okKeys, List.filterMap_cons]

theorem okKeys_subset {α β : Type} (exps : List (String × PyResult (α × β)))
    (k : String) (h : k ∈ okKeys exps) : k ∈ exps.map Prod.fst := by
  induction exps with
  | nil => simp [okKeys] at h
  | cons x rest ih =>
    obtain ⟨k0, r⟩ := x
    cases r with
    | ok pd =>
      simp only [okKeys, List.filterMap_cons] at h
      rw [List.map_cons]
      rcases List.mem_cons.mp h with h1 | h1
      · exact List.mem_cons.mpr (Or.inl h1)
      · exact List.mem_cons.mpr (Or.inr (ih h1))
    | exn e =>
      simp only [okKeys, List.filterMap_cons] at h
      rw [List.map_cons]
      exact List.mem_cons.mpr (Or.inr (ih h))

theorem okKeys_of_all_ok {α β : Type} (exps : List (String × PyResult (α × β)))
    (h : ∀ x ∈ exps, x.2.isOk = true) : okKeys exps = exps.map Prod.fst := by
  induction exps with
  | nil => simp [okKeys]
  | cons x rest ih =>
    obtain ⟨k0, r⟩ := x
    cases r with
    | ok pd =>
      simp only [okKeys, List.filterMap_cons, List.map_cons]
      rw [show List.filterMap _ rest = okKeys rest from rfl,
        ih (fun y hy => h y (List.mem_cons_of_mem _ hy))]
    | exn e =>
      have := h (k0, .exn e) (List.mem_cons_self _ _)
      simp [PyResult.isOk] at this

theorem run_get_procedures_cached (registry r : Registry) (n : Nat) :
    run_get_procedures registry n (some r) = (List.replicate n r, some r, 0) := by
  induction n with
  | zero => simp [run_get_procedures]
  | succ n ih => simp [run_get_procedures, get_procedures_st, ih, List.replicate_succ]

theorem processProps_unknown (keys : List String) (pd : ProcedureDef)
    (procedure : String) (entries : List (String × String)) (e0 : String × String)
    (hok : ∀ e ∈ entries, e.1 ∈ keys → (coerceEntry pd e.1 e.2).isOk = true)
    (hfind : entries.find? (fun e => decide (e.1 ∉ keys)) = some e0) :
    processProps keys pd procedure entries = .exn (keyMissingMsg e0.1 procedure) := by
  induction entries with
  | nil => simp [List.find?] at hfind
  | cons e rest ih =>
    obtain ⟨k, v⟩ := e
    rw [List.find?_cons] at hfind
    by_cases hc : k ∈ keys
    · have hfind2 : rest.find? (fun e => decide (e.1 ∉ keys)) = some e0 := by
        simpa [hc] using hfind
      have hco := hok (k, v) (List.mem_cons_self _ _) hc
      have hrest := ih (fun y hy hz => hok y (List.mem_cons_of_mem _ hy) hz) hfind2
      cases hcv : coerceEntry pd k v with
      | ok pv => simp [processProps, hc, hcv, hrest]
      | exn m => rw [hcv] at hco; simp [PyResult.isOk] at hco
    · have he0 : (k, v) = e0 := by
        simpa [hc] using hfind
      simp [processProps, hc, ← he0]

theorem processProps_ok_entries (keys : List String) (pd : ProcedureDef)
    (procedure : String) (entries : List (String × String))
    (ps : List (String × PValue))
    (h : processProps keys pd procedure entries = .ok ps) :
    ps.map Prod.fst = entries.map Prod.fst := by
  induction entries generalizing ps with
  | nil =>
    simp only [processProps] at h
    cases h
    simp
  | cons e rest ih =>
    obtain ⟨k, v⟩ := e
    by_cases hc : k ∈ keys
    · simp only [processProps, if_pos hc] at h
      cases hcv : coerceEntry pd k v with
      | ok pv =>
        rw [hcv] at h
        cases hrest : processProps keys pd procedure rest with
        | ok ps2 =>
          rw [hrest] at h
          cases h
          simp [ih ps2 hrest]
        | exn m => rw [hrest] at h; cases h
      | exn m => rw [hcv] at h; cases h
    · simp only [processProps, if_neg hc] at h
      cases h

theorem hashCount_pos_of_commentLines_ne_nil (lines : List String)
    (h : commentLinesOf lines ≠ []) : 0 < hashCount lines := by
  have hex : ∃ l ∈ lines,
      beginsWith [ '#', Char.ofNat 9 ] (pyStripS l).toList = true := by
    by_contra hall
    push_neg at hall
    apply h
    apply List.filterMap_eq_nil_iff.mpr
    intro l hl
    have hfalse : beginsWith [ '#', Char.ofNat 9 ] (pyStripS l).toList = false := by
      have := hall l hl
      exact Bool.not_eq_true _ ▸ eq_false_of_ne_true this
    simp only [commentLinesOf, hfalse, Bool.false_eq_true, if_false]
  obtain ⟨l, hl, hb⟩ := hex
  have hb1 : beginsWith [ '#' ] (pyStripS l).toList = true := by
    cases hcs : (pyStripS l).toList with
    | nil => rw [hcs] at hb; exact absurd hb (by simp [beginsWith])
    | cons c cs =>
      rw [hcs] at hb
      have h12 : ((( '#' : Char) = c : Bool) = true) ∧
          beginsWith [Char.ofNat 9] cs = true := (Bool.and_eq_true _ _) ▸ hb
      show ((( '#' : Char) = c : Bool) && beginsWith [] cs) = true
      rw [h12.1]
      rfl
  have hmem : l ∈ lines.filter (fun l => beginsWith [ '#' ] (pyStripS l).toList) :=
    List.mem_filter.mpr ⟨hl, hb1⟩
  have hpos := List.length_pos.mpr (List.ne_nil_of_mem hmem)
  exact hpos

/-! ### Claim theorems -/

/-- C5: for every key, `parse_metadata` coerces `"36.5 C"` with tag
`float` to 36.5 (first whitespace-split token, unit text tolerated),
`"42"` with tag `int` to 42, and with tag `bool` yields true exactly on
the literal `"True"` (so `"False"` and `"true"` both give false). -/
theorem parse_metadata_coercions (k : String) :
    parse_metadata k "36.5 C" "float" = .ok (.pfloat (36.5 : Rat)) ∧
    parse_metadata k "42" "int" = .ok (.pint 42) ∧
    parse_metadata k "True" "bool" = .ok (.pbool true) ∧
    parse_metadata k "False" "bool" = .ok (.pbool false) ∧
    parse_metadata k "true" "bool" = .ok (.pbool false) ∧
    (∀ raw : String, parse_metadata k raw "bool" = .ok (.pbool (decide (raw = "True")))) := by
  refine ⟨?_, rfl, rfl, rfl, rfl, fun raw => rfl⟩
  have h1 : parse_metadata k "36.5 C" "float" = .ok (.pfloat (mkRat 365 10)) := rfl
  rw [h1]
  norm_num [mkRat]

/-- C6: `parse_metadata` on any type tag outside
float/float_no_unit/int/bool/datetime/str raises the unsupported-type
`ValueError` naming the key, and never returns a value. -/
theorem parse_metadata_unknown_tag (key value tag : String)
    (h : tag ∉ ["float", "int", "bool", "str", "datetime", "float_no_unit"]) :
    parse_metadata key value tag = .exn ("Unhandled metadata key: " ++ key) := by
  simp only [List.mem_cons, List.not_mem_nil, or_false, not_or] at h
  obtain ⟨h1, h2, h3, h4, h5, h6⟩ := h
  simp [parse_metadata, h1, h2, h3, h4, h5, h6]

theorem parse_metadata_unknown_tag_witness :
    "mystery" ∉ ["float", "int", "bool", "str", "datetime", "float_no_unit"] ∧
    parse_metadata "Temperature" "5" "mystery" =
      .exn ("Unhandled metadata key: " ++ "Temperature") :=
  ⟨by decide, parse_metadata_unknown_tag "Temperature" "5" "mystery" (by decide)⟩

/-- C7: `determine_procedure` raises on every path not ending in `.csv`;
on a `.csv` path whose first line has a bracketed group it returns the
group's last dot-separated segment and no warning (in particular
`"Result: <lab.instr.ITt>"` gives `"ITt"`); with no bracketed group it
returns the empty string with a warning, not an exception. -/
theorem determine_procedure_spec (path : String) (lines rest : List String)
    (content : List Char) :
    (isSuffixOf ".csv".toList path.toList = false →
      determine_procedure path lines =
        .exn ("The file " ++ pyQuote path ++ " is not a CSV. Please provide a valid .csv file.")) ∧
    (isSuffixOf ".csv".toList path.toList = true →
      reSearchAngle (pyStripS (lines.headD "")).toList = some content →
      determine_procedure path lines =
        .ok (String.mk ((splitChar '.' content).getLastD []), false)) ∧
    (isSuffixOf ".csv".toList path.toList = true →
      reSearchAngle (pyStripS (lines.headD "")).toList = none →
      determine_procedure path lines = .ok ("", true)) ∧
    (isSuffixOf ".csv".toList path.toList = true →
      determine_procedure path ("Result: <lab.instr.ITt>" :: rest) = .ok ("ITt", false)) := by
  refine ⟨fun hf => ?_, fun ht hm => ?_, fun ht hm => ?_, fun ht => ?_⟩
  · unfold determine_procedure
    split
    · next hcond => rw [hf] at hcond; exact absurd hcond (by simp)
    · rfl
  · unfold determine_procedure
    split
    · rw [hm]
    · next hcond => exact absurd ht hcond
  · unfold determine_procedure
    split
    · rw [hm]
    · next hcond => exact absurd ht hcond
  · simp only [determine_procedure, ht, if_true]
    rfl

/-- C8: `get_data_key` depends only on the last two slash-separated path
segments (and is a function, hence deterministic), maps `"a/b/c.csv"` to
`"b/c"`, and raises on every path with fewer than two segments. -/
theorem get_data_key_spec (p q : String)
    (h : (splitChar '/' p.toList).reverse.take 2 =
      (splitChar '/' q.toList).reverse.take 2)
    (hp : 2 ≤ (splitChar '/' p.toList).length) :
    get_data_key p = get_data_key q ∧
    get_data_key "a/b/c.csv" = .ok "b/c" ∧
    (∀ r : String, (splitChar '/' r.toList).length < 2 →
      get_data_key r = .exn "IndexError: list index out of range") := by
  refine ⟨?_, by decide, fun r hr => ?_⟩
  · have hp' : 2 ≤ (splitChar '/' p.toList).reverse.length := by
      rw [List.length_reverse]; exact hp
    obtain ⟨a, t1, h1⟩ : ∃ a t, (splitChar '/' p.toList).reverse = a :: t := by
      cases hc : (splitChar '/' p.toList).reverse with
      | nil => rw [hc] at hp'; simp at hp'
      | cons a t => exact ⟨a, t, rfl⟩
    obtain ⟨b, t2, h2⟩ : ∃ b t, t1 = b :: t := by
      cases hc : t1 with
      | nil => rw [hc] at h1; rw [h1] at hp'; simp at hp'
      | cons b t => exact ⟨b, t, rfl⟩
    have h1' : (splitChar '/' p.toList).reverse = a :: b :: t2 := by rw [h1, h2]
    rw [h1'] at h
    cases hq : (splitChar '/' q.toList).reverse with
    | nil => rw [hq] at h; simp at h
    | cons a' t1' =>
      cases hq2 : t1' with
      | nil => rw [hq2] at hq; rw [hq] at h; simp at h
      | cons b' t2' =>
        rw [hq2] at hq
        rw [hq] at h
        rw [show (2 : Nat) = 0 + 1 + 1 from rfl] at h
        simp only [List.take_succ_cons, List.take_zero, List.cons.injEq, and_true] at h
        obtain ⟨ha, hb⟩ := h
        subst ha
        subst hb
        unfold get_data_key
        rw [h1', hq]
  · have hr' : (splitChar '/' r.toList).reverse.length < 2 := by
      rw [List.length_reverse]; exact hr
    cases hc : (splitChar '/' r.toList).reverse with
    | nil => unfold get_data_key; rw [hc]
    | cons a t =>
      cases hc2 : t with
      | nil => rw [hc2] at hc; unfold get_data_key; rw [hc]
      | cons b t2 =>
        rw [hc2] at hc
        rw [hc] at hr'
        exfalso
        simp only [List.length_cons] at hr'
        omega

theorem get_data_key_spec_witness :
    (splitChar '/' "x/a/b/c.csv".toList).reverse.take 2 =
      (splitChar '/' "z/b/c.csv".toList).reverse.take 2 ∧
    2 ≤ (splitChar '/' "x/a/b/c.csv".toList).length ∧
    (get_data_key "x/a/b/c.csv" = get_data_key "z/b/c.csv" ∧
      get_data_key "a/b/c.csv" = .ok "b/c" ∧
      (∀ r : String, (splitChar '/' r.toList).length < 2 →
        get_data_key r = .exn "IndexError: list index out of range")) :=
  ⟨by decide, by decide,
    get_data_key_spec "x/a/b/c.csv" "z/b/c.csv" (by decide) (by decide)⟩

/-- C2: `separate_nanolab_dataset` never propagates a producer's
exception: a failing entry is logged and skipped while the rest are
processed. With 3 producers where the 2nd raises, it returns exactly 2
property rows and a table map with exactly the 1st and 3rd keys, and logs
one error, for the 2nd key. -/
theorem separate_skips_failing_entry {α β : Type} (k1 k2 k3 : String)
    (p1 p3 : α) (d1 d3 : β) (e : String) (h13 : k1 ≠ k3) :
    separate_nanolab_dataset [(k1, .ok (p1, d1)), (k2, .exn e), (k3, .ok (p3, d3))] =
      ([p1, p3], [(k1, d1), (k3, d3)]) ∧
    separate_errors [(k1, PyResult.ok (p1, d1)), (k2, .exn e), (k3, .ok (p3, d3))] =
      [(k2, e)] := by
  constructor
  · simp [separate_nanolab_dataset, sepGo, dictInsert, h13]
  · simp [separate_errors]

theorem separate_skips_failing_entry_witness :
    "exp1" ≠ "exp3" ∧
    (separate_nanolab_dataset
        [("exp1", .ok (1, 10)), ("exp2", .exn "boom"), ("exp3", PyResult.ok ((3 : Nat), (30 : Nat)))] =
      ([1, 3], [("exp1", 10), ("exp3", 30)]) ∧
    separate_errors
        [("exp1", .ok (1, 10)), ("exp2", .exn "boom"), ("exp3", PyResult.ok ((3 : Nat), (30 : Nat)))] =
      [("exp2", "boom")]) :=
  ⟨by decide, separate_skips_failing_entry "exp1" "exp2" "exp3" 1 3 10 30 "boom" (by decide)⟩

/-- C3: the table map returned by `separate_nanolab_dataset` has a key
set contained in the input's key set, with equality when every producer
succeeds, and the property rows are exactly one per successful entry, in
processing (input) order. -/
theorem separate_invariants {α β : Type}
    (exps : List (String × PyResult (α × β))) :
    (∀ k, k ∈ (separate_nanolab_dataset exps).2.map Prod.fst →
      k ∈ exps.map Prod.fst) ∧
    ((∀ x ∈ exps, x.2.isOk = true) →
      ∀ k, (k ∈ (separate_nanolab_dataset exps).2.map Prod.fst ↔
        k ∈ exps.map Prod.fst)) ∧
    (separate_nanolab_dataset exps).1 =
      exps.filterMap (fun x => x.2.toOption.map Prod.fst) := by
  refine ⟨?_, ?_, ?_⟩
  · intro k hk
    rw [separate_nanolab_dataset, sepGo_data_mem] at hk
    rcases hk with hk | hk
    · simp at hk
    · exact okKeys_subset exps k hk
  · intro hall k
    rw [separate_nanolab_dataset, sepGo_data_mem, okKeys_of_all_ok exps hall]
    simp
  · rw [separate_nanolab_dataset, sepGo_props]
    simp

/-- C9: across any number of `get_procedures()` calls in one process the
catalog is loaded at most once — exactly once as soon as there is at
least one call — every call returns the loaded registry, and the cache
is never invalidated or refreshed. -/
theorem get_procedures_loads_once (registry : Registry) (n : Nat) :
    (run_get_procedures registry n none).2.2 = (if n = 0 then 0 else 1) ∧
    (run_get_procedures registry n none).1 = List.replicate n registry ∧
    (run_get_procedures registry n none).2.1 =
      (if n = 0 then none else some registry) := by
  cases n with
  | zero => simp [run_get_procedures]
  | succ n =>
    simp [run_get_procedures, get_procedures_st, run_get_procedures_cached,
      List.replicate_succ]

/-- C10: when every collected header line is well-formed, duplicated keys
never make `read_comment_lines` raise: it succeeds and the returned dict
maps each key to the value of the last header line carrying it. -/
theorem read_comment_lines_duplicate_keys (lines : List String)
    (ps : List (String × String))
    (h : parseHeaderPairs (commentLinesOf lines) = .ok ps) :
    ∃ d n, read_comment_lines lines = .ok (d, n) ∧
      ∀ k, dictGet? d k =
        ((ps.filter (fun p => p.1 = k)).getLast?).map Prod.snd := by
  cases hcl : (commentLinesOf lines).isEmpty with
  | true =>
    have hnil : commentLinesOf lines = [] := by
      cases hc : commentLinesOf lines
      · rfl
      · rw [hc] at hcl; simp [List.isEmpty] at hcl
    rw [hnil] at h
    simp only [parseHeaderPairs] at h
    cases h
    refine ⟨[], 0, by simp [read_comment_lines, hnil], fun k => ?_⟩
    simp [dictGet?]
  | false =>
    refine ⟨pyDictOf ps, hashCount lines, ?_, fun k => ?_⟩
    · unfold read_comment_lines
      simp only [hcl, Bool.false_eq_true, if_false]
      unfold make_dict_from_parsed_data
      rw [h]
    · rw [pyDictOf, dictGet?_foldl_dictInsert, ← lastValue_eq_getLast?_filter]
      cases lastValue k ps with
      | some v => rfl
      | none => simp [dictGet?]

theorem read_comment_lines_duplicate_keys_witness :
    parseHeaderPairs (commentLinesOf ["#\tFall time: 1", "#\tFall time: 2"]) =
      .ok [("Fall time", "1"), ("Fall time", "2")] ∧
    (∃ d n,
      read_comment_lines ["#\tFall time: 1", "#\tFall time: 2"] = .ok (d, n) ∧
      ∀ k, dictGet? d k =
        (([("Fall time", "1"), ("Fall time", "2")].filter
          (fun p => p.1 = k)).getLast?).map Prod.snd) :=
  ⟨by decide,
    read_comment_lines_duplicate_keys ["#\tFall time: 1", "#\tFall time: 2"]
      [("Fall time", "1"), ("Fall time", "2")] (by decide)⟩

/-- C4 counterexample: a file whose only line is `"# hello"` has one
`#`-prefixed line, yet `read_comment_lines` returns offset 0 (with the
empty header), because the source returns `({}, 0)` whenever no
`#`-tab line was collected; the claimed `body_offset = number of
#-prefixed lines` fails here. -/
theorem read_comment_lines_offset_cex :
    read_comment_lines ["# hello"] = .ok ([], 0) ∧
    hashCount ["# hello"] = 1 ∧
    (0 : Nat) ≠ 1 :=
  ⟨by decide, by decide, by decide⟩

/-- C4 amended: the returned offset equals the number of `#`-prefixed
lines whenever the returned header is nonempty; and on a file with no
`#`-prefixed lines (indeed whenever no `#`-tab header line exists)
`read_comment_lines` returns the empty header and offset 0. -/
theorem read_comment_lines_offset_amended (lines : List String) :
    (∀ d n, read_comment_lines lines = .ok (d, n) → d ≠ [] →
      n = hashCount lines) ∧
    (hashCount lines = 0 → read_comment_lines lines = .ok ([], 0)) := by
  constructor
  · intro d n h hd
    unfold read_comment_lines at h
    cases hcl : (commentLinesOf lines).isEmpty with
    | true =>
      simp only [hcl, if_true] at h
      cases h
      exact absurd rfl hd
    | false =>
      simp only [hcl, Bool.false_eq_true, if_false] at h
      cases hmk : make_dict_from_parsed_data (commentLinesOf lines) with
      | ok d2 => rw [hmk] at h; cases h; rfl
      | exn e => rw [hmk] at h; cases h
  · intro h0
    have hnil : commentLinesOf lines = [] := by
      by_contra hne
      have := hashCount_pos_of_commentLines_ne_nil lines hne
      omega
    unfold read_comment_lines
    rw [hnil]
    simp

/-- C1 counterexample: a header whose first entry is a known key with an
unconvertible value and whose second entry is the unknown key `"z"`. The
claim says `make_props_data` must fail with the key-validation error
naming `"z"` and the procedure, but the source coerces entries in header
order and fails first with the float conversion `ValueError` for
`"abc"`, which is not the key-validation message. -/
theorem make_props_data_unknown_key_cex :
    read_comment_lines ["Result: <nanolab.proc.ITt>", "#\tx: abc", "#\tz: 1", "V,I"] =
      .ok ([("x", "abc"), ("z", "1")], 2) ∧
    ("z" ∈ [("x", "abc"), ("z", "1")].map Prod.fst ∧ "z" ∉ ["x"]) ∧
    get_keys [("ITt", ⟨[("x", "float")], [], [("V", "float64")]⟩)] "ITt" = .ok ["x"] ∧
    make_props_data "a/b/t.csv"
        ["Result: <nanolab.proc.ITt>", "#\tx: abc", "#\tz: 1", "V,I"]
        [("ITt", ⟨[("x", "float")], [], [("V", "float64")]⟩)] =
      .exn ("could not convert string to float: " ++ pyQuote "abc") ∧
    ("could not convert string to float: " ++ pyQuote "abc") ≠
      keyMissingMsg "z" "ITt" :=
  ⟨by decide, by decide, by decide, by decide, by decide⟩

/-- C1 amended: `make_props_data` validates in direction (a) — every
header key must be a known schema key. Provided the coercions of the
known header keys succeed, a header containing a key outside the
resolved schema's key set makes `make_props_data` fail with the
key-validation `KeyError` naming the first such key and the procedure.
(Without the coercion proviso an earlier known key's conversion error
can pre-empt the key-validation error; see the counterexample.) -/
theorem make_props_data_unknown_key_amended
    (path : String) (lines : List String) (procedures : Registry)
    (found : List (String × String)) (header : Nat)
    (procedure : String) (w : Bool) (pd : ProcedureDef) (e0 : String × String)
    (h1 : read_comment_lines lines = .ok (found, header))
    (h2 : determine_procedure path lines = .ok (procedure, w))
    (h3 : dictGet? procedures procedure = some pd)
    (hok : ∀ e ∈ found,
      e.1 ∈ pd.Parameters.map Prod.fst ++ pd.Metadata.map Prod.fst →
      (coerceEntry pd e.1 e.2).isOk = true)
    (hfind : found.find?
        (fun e => decide (e.1 ∉ pd.Parameters.map Prod.fst ++ pd.Metadata.map Prod.fst)) =
      some e0) :
    make_props_data path lines procedures = .exn (keyMissingMsg e0.1 procedure) := by
  have hpp := processProps_unknown
    (pd.Parameters.map Prod.fst ++ pd.Metadata.map Prod.fst)
    pd procedure found e0 hok hfind
  simp only [make_props_data, h1, h2, get_keys, h3, hpp]

theorem make_props_data_unknown_key_amended_witness :
    read_comment_lines ["Result: <nanolab.proc.ITt>", "#\tx: 1.5", "#\tz: 1"] =
      .ok ([("x", "1.5"), ("z", "1")], 2) ∧
    determine_procedure "a/b/t.csv" ["Result: <nanolab.proc.ITt>", "#\tx: 1.5", "#\tz: 1"] =
      .ok ("ITt", false) ∧
    dictGet? [("ITt", (⟨[("x", "float")], [], [("V", "float64")]⟩ : ProcedureDef))] "ITt" =
      some (⟨[("x", "float")], [], [("V", "float64")]⟩ : ProcedureDef) ∧
    (∀ e ∈ [("x", "1.5"), ("z", "1")],
      e.1 ∈ (⟨[("x", "float")], [], [("V", "float64")]⟩ : ProcedureDef).Parameters.map Prod.fst ++
        (⟨[("x", "float")], [], [("V", "float64")]⟩ : ProcedureDef).Metadata.map Prod.fst →
      (coerceEntry (⟨[("x", "float")], [], [("V", "float64")]⟩ : ProcedureDef) e.1 e.2).isOk = true) ∧
    ([("x", "1.5"), ("z", "1")].find?
        (fun e => decide (e.1 ∉
          (⟨[("x", "float")], [], [("V", "float64")]⟩ : ProcedureDef).Parameters.map Prod.fst ++
          (⟨[("x", "float")], [], [("V", "float64")]⟩ : ProcedureDef).Metadata.map Prod.fst)) =
      some ("z", "1")) ∧
    make_props_data "a/b/t.csv" ["Result: <nanolab.proc.ITt>", "#\tx: 1.5", "#\tz: 1"]
        [("ITt", (⟨[("x", "float")], [], [("V", "float64")]⟩ : ProcedureDef))] =
      .exn (keyMissingMsg "z" "ITt") :=
  ⟨by decide, by decide, by decide, by decide, by decide,
    make_props_data_unknown_key_amended "a/b/t.csv"
      ["Result: <nanolab.proc.ITt>", "#\tx: 1.5", "#\tz: 1"]
      [("ITt", (⟨[("x", "float")], [], [("V", "float64")]⟩ : ProcedureDef))]
      [("x", "1.5"), ("z", "1")] 2 "ITt" false
      (⟨[("x", "float")], [], [("V", "float64")]⟩ : ProcedureDef) ("z", "1")
      (by decide) (by decide) (by decide) (by decide) (by decide)⟩
